import Mathlib

/-!
Verification development for the DNS subsystem of the Arrowhead core
node.js client: a shallow embedding of `source/main/dns/io.ts`
(byte-window `Reader` and `Writer`) and of the request-multiplexing
logic of `source/main/dns/ResolverSocket.ts`, with theorems about the
behaviour of those embedded operations.

Modelling conventions:
* A Node.js `Buffer` is a `List Nat` of byte values; a JS string is a
  `List Nat` of character codes (the sources use the latin1/"binary"
  encoding for DNS labels, under which byte values and character codes
  coincide for codes < 256; the general theorems about names restrict
  label characters to codes < 128, where latin1 and the utf8 default of
  `Buffer.write` agree).
* `Buffer.copy` and `Buffer.write` clamp at the end of the target
  buffer and return the number of bytes actually written, exactly as in
  Node.js; the typed `writeUInt*BE` helpers are only reached behind the
  window-bound guards of the source, and store values truncated to
  their width.
* JS numbers holding small non-negative integers are `Nat`;
  `Task.retriesLeft`, which the source decrements possibly below zero,
  is `Int`.
-/

namespace AhfDns

/-- `src.copy(target, targetStart)` of Node.js: copies
`min src.length (target.length - targetStart)` bytes of `src` into
`target` at `targetStart` and returns the updated target together with
the number of bytes copied. -/
def bufCopy (src target : List Nat) (targetStart : Nat) : List Nat × Nat :=
  let n := min src.length (target.length - targetStart)
  (target.take targetStart ++ src.take n ++ target.drop (targetStart + n), n)

/-- `buf.write(string, offset, maxLen?)` of Node.js (latin1 view):
writes `min (maxLen?) string.length (buf.length - offset)` character
codes, truncated to bytes, and returns the updated buffer and the
count. -/
def bufWriteStr (s buf : List Nat) (offset : Nat) (maxLen : Option Nat) :
    List Nat × Nat :=
  let lim := match maxLen with
    | some m => min m s.length
    | none => s.length
  let n := min lim (buf.length - offset)
  (buf.take offset ++ (s.take n).map (· % 256) ++ buf.drop (offset + n), n)

/-- The end bound computed by the `Reader`/`Writer` constructors:
`end ? Math.min(end, len) : len` — note that the JS value `0` is falsy,
so an explicit end of `0` also yields `len`. -/
def windowEnd (len : Nat) : Option Nat → Nat
  | none => len
  | some e => if e = 0 then len else min e len

/-- State of `io.ts` `Reader`: byte source, cursor, exclusive end. -/
structure Reader where
  source : List Nat
  cursor : Nat
  endIdx : Nat
  deriving DecidableEq, Repr

/-- `new Reader(source, offset, end)`. -/
def Reader.make (source : List Nat) (offset : Nat := 0)
    (e : Option Nat := none) : Reader :=
  { source := source, cursor := offset, endIdx := windowEnd source.length e }

/-- `Reader.pop(length)`: sub-window of the next `length` bytes; the
parent cursor advances by `length` unconditionally. -/
def Reader.pop (r : Reader) (length : Nat) : Reader × Reader :=
  (Reader.make r.source r.cursor (some (r.cursor + length)),
   { r with cursor := r.cursor + length })

/-- `Reader.read(length)`: slice from the cursor to
`min end (cursor + length)`, advancing the cursor to that point. -/
def Reader.read (r : Reader) (length : Nat) : List Nat × Reader :=
  let c := min r.endIdx (r.cursor + length)
  ((r.source.drop r.cursor).take (c - r.cursor), { r with cursor := c })

/-- `Reader.readU8()`: returns `0` without advancing when fewer than
one byte remains before the end bound. -/
def Reader.readU8 (r : Reader) : Nat × Reader :=
  if r.cursor + 1 > r.endIdx then (0, r)
  else (r.source.getD r.cursor 0, { r with cursor := r.cursor + 1 })

/-- `Reader.readU16()` big-endian, `0` when out of bounds. -/
def Reader.readU16 (r : Reader) : Nat × Reader :=
  if r.cursor + 2 > r.endIdx then (0, r)
  else (256 * r.source.getD r.cursor 0 + r.source.getD (r.cursor + 1) 0,
    { r with cursor := r.cursor + 2 })

/-- `Reader.readU32()` big-endian, `0` when out of bounds. -/
def Reader.readU32 (r : Reader) : Nat × Reader :=
  if r.cursor + 4 > r.endIdx then (0, r)
  else (16777216 * r.source.getD r.cursor 0 +
        65536 * r.source.getD (r.cursor + 1) 0 +
        256 * r.source.getD (r.cursor + 2) 0 +
        r.source.getD (r.cursor + 3) 0,
    { r with cursor := r.cursor + 4 })

/-- `Reader.readU48()` big-endian, `0` when out of bounds. -/
def Reader.readU48 (r : Reader) : Nat × Reader :=
  if r.cursor + 6 > r.endIdx then (0, r)
  else (4294967296 * (256 * r.source.getD r.cursor 0 +
          r.source.getD (r.cursor + 1) 0) +
        16777216 * r.source.getD (r.cursor + 2) 0 +
        65536 * r.source.getD (r.cursor + 3) 0 +
        256 * r.source.getD (r.cursor + 4) 0 +
        r.source.getD (r.cursor + 5) 0,
    { r with cursor := r.cursor + 6 })

/-- `label.replace(".", "\\.")` of `readName`: JS `String.replace` with
a string pattern replaces only the FIRST occurrence. -/
def replaceFirstDot : List Nat → List Nat
  | [] => []
  | c :: rest =>
    if c = 46 then 92 :: 46 :: rest else c :: replaceFirstDot rest

/-- The `readName` loop, fuel-indexed.  A compression pointer recurses
into a fresh reader at the pointed absolute offset; the source would
loop forever on a pointer cycle, which the fuel cuts off (no claim in
this development involves pointers). -/
def Reader.readNameGo (r : Reader) : Nat → List Nat × Reader
  | 0 => ([], r)
  | fuel + 1 =>
    let (len, r1) := r.readU8
    if len = 0 then ([], r1)
    else if 63 < len then
      let r2 := { r1 with cursor := r1.cursor - 1 }
      let (field, r3) := r2.readU16
      if len &&& 0xc0 = 0xc0 then
        let (pointed, _) :=
          Reader.readNameGo (Reader.make r.source (field % 16384) none) fuel
        (pointed, r3)
      else ([], r3)
    else
      let (bytes, r2) := r1.read len
      let (rest, r3) := Reader.readNameGo r2 fuel
      (replaceFirstDot bytes ++ 46 :: rest, r3)

/-- `Reader.readName()` (fuel `source.length + 1`, enough for any
pointer-free input). -/
def Reader.readName (r : Reader) : List Nat × Reader :=
  Reader.readNameGo r (r.source.length + 1)

/-- `Reader.readString()`: one length byte then that many bytes. -/
def Reader.readString (r : Reader) : List Nat × Reader :=
  let (len, r1) := r.readU8
  r1.read len

/-- The `readStrings` do/while loop, fuel-indexed. -/
def Reader.readStringsGo (r : Reader) : Nat → List (List Nat) × Reader
  | 0 => ([], r)
  | fuel + 1 =>
    let (len, r1) := r.readU8
    let (s, r2) := r1.read len
    if len = 0 then ([s], r2)
    else
      let (rest, r3) := Reader.readStringsGo r2 fuel
      (s :: rest, r3)

/-- `Reader.readStrings()`: reads character-strings until (and
including) a zero length byte. -/
def Reader.readStrings (r : Reader) : List (List Nat) × Reader :=
  Reader.readStringsGo r (r.endIdx - r.cursor + 1)

/-- State of `io.ts` `Writer`: byte sink, cursor, exclusive end,
overflow flag (initially the falsy `undefined`). -/
structure Writer where
  sink : List Nat
  cursor : Nat
  endIdx : Nat
  overflowed : Bool
  deriving DecidableEq, Repr

/-- `new Writer(sink, offset, end)`. -/
def Writer.make (sink : List Nat) (offset : Nat := 0)
    (e : Option Nat := none) : Writer :=
  { sink := sink, cursor := offset, endIdx := windowEnd sink.length e,
    overflowed := false }

/-- `Writer.offset()` (the absolute cursor in the main sources). -/
def Writer.offset (w : Writer) : Nat := w.cursor

/-- `Writer.pop(length)`: sub-window of the next `length` bytes; the
parent cursor advances by `length` unconditionally. -/
def Writer.pop (w : Writer) (length : Nat) : Writer × Writer :=
  (Writer.make w.sink w.cursor (some (w.cursor + length)),
   { w with cursor := w.cursor + length })

/-- `Writer.write(source)`: discarded entirely (flag set) when it would
pass the end bound, otherwise a clamped `Buffer.copy`. -/
def Writer.write (w : Writer) (src : List Nat) : Writer :=
  if w.cursor + src.length > w.endIdx then { w with overflowed := true }
  else
    let (sink, n) := bufCopy src w.sink w.cursor
    { w with sink := sink, cursor := w.cursor + n }

/-- `Writer.writeU8(v)`. -/
def Writer.writeU8 (w : Writer) (v : Nat) : Writer :=
  if w.cursor + 1 > w.endIdx then { w with overflowed := true }
  else { w with sink := w.sink.set w.cursor (v % 256),
                cursor := w.cursor + 1 }

/-- `Writer.writeU16(v)` big-endian. -/
def Writer.writeU16 (w : Writer) (v : Nat) : Writer :=
  if w.cursor + 2 > w.endIdx then { w with overflowed := true }
  else { w with
    sink := (w.sink.set w.cursor (v / 256 % 256)).set (w.cursor + 1) (v % 256),
    cursor := w.cursor + 2 }

/-- `Writer.writeU32(v)` big-endian. -/
def Writer.writeU32 (w : Writer) (v : Nat) : Writer :=
  if w.cursor + 4 > w.endIdx then { w with overflowed := true }
  else { w with
    sink := (((w.sink.set w.cursor (v / 16777216 % 256)).set
      (w.cursor + 1) (v / 65536 % 256)).set
      (w.cursor + 2) (v / 256 % 256)).set (w.cursor + 3) (v % 256),
    cursor := w.cursor + 4 }

/-- `Writer.writeU48(v)`: a u16 of `v / 2^32` then a u32 of
`v mod 2^32`, big-endian. -/
def Writer.writeU48 (w : Writer) (v : Nat) : Writer :=
  if w.cursor + 6 > w.endIdx then { w with overflowed := true }
  else { w with
    sink := (((((w.sink.set w.cursor (v / 4294967296 / 256 % 256)).set
      (w.cursor + 1) (v / 4294967296 % 256)).set
      (w.cursor + 2) (v / 16777216 % 256)).set
      (w.cursor + 3) (v / 65536 % 256)).set
      (w.cursor + 4) (v / 256 % 256)).set (w.cursor + 5) (v % 256),
    cursor := w.cursor + 6 }

/-- `Writer.writeString(s)`: the length byte goes through the guarded
`writeU8`, but the content bytes go through a raw `Buffer.write` that
is bounded only by the sink, not by the window end. -/
def Writer.writeString (w : Writer) (s : List Nat) : Writer :=
  let w1 := w.writeU8 s.length
  let (sink, n) := bufWriteStr s w1.sink w1.cursor none
  { w1 with sink := sink, cursor := w1.cursor + n }

/-- One iteration of the `writeStrings` loop: the masked length is
emitted through the guarded `writeU8`, the content through a raw
`Buffer.write` bounded only by the sink; strings whose masked length is
`0` are silently skipped. -/
def Writer.writeStringsStep (mask : Nat) (w : Writer) (s : List Nat) : Writer :=
  let len := s.length &&& mask
  if 0 < len then
    let w1 := w.writeU8 len
    let (sink, n) := bufWriteStr s w1.sink w1.cursor (some len)
    { w1 with sink := sink, cursor := w1.cursor + n }
  else w

/-- `Writer.writeStrings(strings, lengthMask)` (mask defaults to 0xff;
`writeName` passes 0x3f). -/
def Writer.writeStrings (w : Writer) (strings : List (List Nat))
    (mask : Nat := 0xff) : Writer :=
  (strings.foldl (Writer.writeStringsStep mask) w).writeU8 0

/-- The label-splitting loop of `writeName`: split on `.`, `\` escapes
the next character, the label accumulated when the input ends is pushed
only if non-empty. -/
def splitNameGo : List Nat → List Nat → List (List Nat)
  | [], label => if label.length > 0 then [label] else []
  | 46 :: rest, label => label :: splitNameGo rest []
  | 92 :: [], label => if label.length > 0 then [label] else []
  | 92 :: d :: rest, label => splitNameGo rest (label ++ [d])
  | c :: rest, label => splitNameGo rest (label ++ [c])

/-- `Writer.writeName(name)`: split into labels, then
`writeStrings(labels, 0x3f)`. -/
def Writer.writeName (w : Writer) (name : List Nat) : Writer :=
  w.writeStrings (splitNameGo name []) 0x3f

/-! ## Resolver socket (`source/main/dns/ResolverSocket.ts`)

The resolver socket multiplexes tasks over a UDP and a TCP sender
(`SenderBase`), each owning an `outbound` queue and an `inbound`
insertion-ordered map.  `Message.ts` is not among the sources, so a
request is abstracted by its id, opcode and the byte size its
`Message.write` produces; callbacks (`task.resolve`, `task.reject`,
`onErrorIgnored`) and transport effects are recorded as events.  The
synchronous event cascade of the source (a transport `overflow` fires
inside `poll`, whose handler dequeues the task and re-enqueues it on
the TCP sender, after which `poll` still stamps the task into the UDP
`inbound` map) is modelled by direct function calls in the same order.
The `forEach` drain of `poll` is modelled by folding over a snapshot of
the queue, which coincides with the JS live-array iteration whenever at
most one task is queued — the situation in every theorem below. -/

/-- `ResolverErrorKind` of `Resolver.ts`. -/
inductive ErrKind
  | RequestIDInUse
  | RequestTooLong
  | RequestUnanswered
  | ResponseIDUnexpected
  | Other
  deriving DecidableEq, Repr

/-- A DNS request as the resolver socket sees it: `Message.ts` is not
among the sources, so the serialized size of `Message.write` output is
carried as a field. -/
structure DnsRequest where
  id : Nat
  opcode : Nat
  size : Nat
  deriving DecidableEq, Repr

/-- `OpCode.UPDATE` of `constants.ts`. -/
def opcodeUPDATE : Nat := 5

/-- A decoded response, reduced to the fields the resolver inspects
(`id`) plus the truncation flag `tc` that the spec talks about. -/
structure Response where
  id : Nat
  tc : Bool
  deriving DecidableEq, Repr

/-- `Task` of `ResolverSocket.ts`. `retriesLeft` is an `Int` because
the source decrements it below zero (`task.retriesLeft--`). -/
structure Task where
  request : DnsRequest
  retriesLeft : Int
  timeSentUnixMs : Option Nat
  deriving DecidableEq, Repr

/-- Observable effects: settled caller futures, ignored errors,
transport sends and open requests. -/
inductive Ev
  | resolved (request : DnsRequest) (resp : Response)
  | rejectedTask (id : Nat) (kind : ErrKind)
  | errorIgnored (kind : ErrKind)
  | udpSent (id : Nat)
  | tcpSent (id : Nat)
  | udpOpenRequested
  | tcpOpenRequested
  deriving DecidableEq, Repr

/-- One `SenderBase`: the insertion-ordered `inbound` map and the
`outbound` queue. -/
structure SenderState where
  inbound : List (Nat × Task)
  outbound : List Task
  deriving DecidableEq, Repr

/-- `Map.has` on the insertion-ordered map. -/
def inboundHas (m : List (Nat × Task)) (id : Nat) : Bool :=
  m.any (fun p => p.1 = id)

/-- `Map.get` on the insertion-ordered map. -/
def inboundGet (m : List (Nat × Task)) (id : Nat) : Option Task :=
  (m.find? (fun p => p.1 = id)).map Prod.snd

/-- `Map.delete` on the insertion-ordered map. -/
def inboundDelete (m : List (Nat × Task)) (id : Nat) : List (Nat × Task) :=
  m.filter (fun p => p.1 ≠ id)

/-- `Map.set`: replaces in place if the key is present, else appends. -/
def inboundSet (m : List (Nat × Task)) (id : Nat) (t : Task) :
    List (Nat × Task) :=
  if inboundHas m id then m.map (fun p => if p.1 = id then (id, t) else p)
  else m ++ [(id, t)]

/-- The `outbound` scan of `SenderBase.dequeue`: remove and return the
first task with the given request id. -/
def dequeueOutbound : List Task → Nat → Option (Task × List Task)
  | [], _ => none
  | t :: rest, id =>
    if t.request.id = id then some (t, rest)
    else match dequeueOutbound rest id with
      | some (x, r) => some (x, t :: r)
      | none => none

/-- `SenderBase.dequeue(id)`: outbound queue first, then the inbound
map. -/
def SenderState.dequeue (s : SenderState) (id : Nat) :
    Option Task × SenderState :=
  match dequeueOutbound s.outbound id with
  | some (t, rest) => (some t, { s with outbound := rest })
  | none =>
    match inboundGet s.inbound id with
    | some t => (some t, { s with inbound := inboundDelete s.inbound id })
    | none => (none, s)

/-- Whole-resolver state: the two senders and the two transports'
open flags. -/
structure RState where
  udp : SenderState
  tcp : SenderState
  udpOpen : Bool
  tcpOpen : Bool
  deriving DecidableEq, Repr

/-- The empty resolver state right after construction. -/
def RState.initial : RState :=
  { udp := ⟨[], []⟩, tcp := ⟨[], []⟩, udpOpen := false, tcpOpen := false }

/-- `TransportTCP.send` as seen by the sender, for unsigned requests
(the signed path is modelled separately by `tcpSendFrame`): the writer
starts at offset 2 of the 65537-byte scratch buffer, so it overflows
iff `2 + size > bufLen`; on overflow the transport event cascades into
`SenderBase`'s dequeue and the resolver's `rejectAsTooLong`. -/
def tcpSendTask (bufLen : Nat) (st : RState) (req : DnsRequest) :
    RState × List Ev :=
  if 2 + req.size > bufLen then
    let (tOpt, tcp) := st.tcp.dequeue req.id
    let st := { st with tcp := tcp }
    match tOpt with
    | some t => (st, [Ev.rejectedTask t.request.id ErrKind.RequestTooLong])
    | none => (st, [])
  else (st, [Ev.tcpSent req.id])

/-- `SenderBase.poll` of the TCP sender: drain `outbound` through the
transport, stamping each task and moving it into `inbound` (the stamp
and the move happen even when the transport reported an overflow for
the task — the source's `forEach` body runs unconditionally after
`transport.send`). -/
def tcpPoll (bufLen now : Nat) (st : RState) : RState × List Ev :=
  if st.tcp.outbound.isEmpty then (st, [])
  else if !st.tcpOpen then (st, [Ev.tcpOpenRequested])
  else
    let snapshot := st.tcp.outbound
    let (st, evs) := snapshot.foldl
      (fun (acc : RState × List Ev) t =>
        let (st, evs) := acc
        let (st, evs2) := tcpSendTask bufLen st t.request
        let st := { st with tcp := { st.tcp with
          inbound := inboundSet st.tcp.inbound t.request.id
            { t with timeSentUnixMs := some now } } }
        (st, evs ++ evs2))
      (st, [])
    ({ st with tcp := { st.tcp with outbound := [] } }, evs)

/-- `SenderBase.enqueue` of the TCP sender: reject `RequestIDInUse`
when the id is already in the inbound map (the outbound queue is NOT
consulted), otherwise push and poll. -/
def tcpEnqueue (bufLen now : Nat) (st : RState) (t : Task) :
    RState × List Ev :=
  if inboundHas st.tcp.inbound t.request.id then
    (st, [Ev.rejectedTask t.request.id ErrKind.RequestIDInUse])
  else
    let st := { st with tcp := { st.tcp with
      outbound := st.tcp.outbound ++ [t] } }
    tcpPoll bufLen now st

/-- `TransportUDP.send` as seen by the sender, including the resolver's
`overflow` wiring: the writer covers the whole scratch buffer, and the
transport raises `overflow` when the offset exceeds 512 or the writer
overflowed, reporting `writer.offset()` resp. `buffer.length`;
`SenderBase` dequeues the task and the `ResolverSocket` handler either
re-enqueues it on the TCP sender (when the reported length fits
`buffer.length - 2`) or rejects it as `RequestTooLong`. -/
def udpSendTask (bufLen now : Nat) (st : RState) (req : DnsRequest) :
    RState × List Ev :=
  if req.size > 512 ∨ req.size > bufLen then
    let len := if req.size > bufLen then bufLen else req.size
    let (tOpt, udp) := st.udp.dequeue req.id
    let st := { st with udp := udp }
    match tOpt with
    | some t =>
      if len ≤ bufLen - 2 then tcpEnqueue bufLen now st t
      else (st, [Ev.rejectedTask t.request.id ErrKind.RequestTooLong])
    | none => (st, [])
  else (st, [Ev.udpSent req.id])

/-- `SenderBase.poll` of the UDP sender (same shape as `tcpPoll`). -/
def udpPoll (bufLen now : Nat) (st : RState) : RState × List Ev :=
  if st.udp.outbound.isEmpty then (st, [])
  else if !st.udpOpen then (st, [Ev.udpOpenRequested])
  else
    let snapshot := st.udp.outbound
    let (st, evs) := snapshot.foldl
      (fun (acc : RState × List Ev) t =>
        let (st, evs) := acc
        let (st, evs2) := udpSendTask bufLen now st t.request
        let st := { st with udp := { st.udp with
          inbound := inboundSet st.udp.inbound t.request.id
            { t with timeSentUnixMs := some now } } }
        (st, evs ++ evs2))
      (st, [])
    ({ st with udp := { st.udp with outbound := [] } }, evs)

/-- `SenderBase.enqueue` of the UDP sender. -/
def udpEnqueue (bufLen now : Nat) (st : RState) (t : Task) :
    RState × List Ev :=
  if inboundHas st.udp.inbound t.request.id then
    (st, [Ev.rejectedTask t.request.id ErrKind.RequestIDInUse])
  else
    let st := { st with udp := { st.udp with
      outbound := st.udp.outbound ++ [t] } }
    udpPoll bufLen now st

/-- `ResolverSocket.send(request)`: non-UPDATE requests get
`retriesLeft = 2` and go to the UDP sender; UPDATE requests keep the
default `0` and go to the TCP sender. -/
def resolverSend (bufLen now : Nat) (st : RState) (req : DnsRequest) :
    RState × List Ev :=
  if req.opcode ≠ opcodeUPDATE then
    udpEnqueue bufLen now st
      { request := req, retriesLeft := 2, timeSentUnixMs := none }
  else
    tcpEnqueue bufLen now st
      { request := req, retriesLeft := 0, timeSentUnixMs := none }

/-- The UDP transport's `listening`/`open` event: mark open, re-poll. -/
def udpOpened (bufLen now : Nat) (st : RState) : RState × List Ev :=
  udpPoll bufLen now { st with udpOpen := true }

/-- The TCP transport's `connect`/`open` event: mark open, re-poll. -/
def tcpOpened (bufLen now : Nat) (st : RState) : RState × List Ev :=
  tcpPoll bufLen now { st with tcpOpen := true }

/-- A decoded datagram arriving on the UDP transport
(`transport.on("response", ...)` in `SenderBase` wired to
`resolveTaskWithResponse` / `ignoreUnexpectedResponse` by the
`ResolverSocket` constructor): the task with the matching id is
dequeued and its future resolved with the response — the `tc` flag is
never inspected. -/
def udpResponse (st : RState) (resp : Response) : RState × List Ev :=
  let (tOpt, udp) := st.udp.dequeue resp.id
  let st := { st with udp := udp }
  match tOpt with
  | none => (st, [Ev.errorIgnored ErrKind.ResponseIDUnexpected])
  | some t => (st, [Ev.resolved t.request resp])

/-- A response arriving on the TCP transport. -/
def tcpResponse (st : RState) (resp : Response) : RState × List Ev :=
  let (tOpt, tcp) := st.tcp.dequeue resp.id
  let st := { st with tcp := tcp }
  match tOpt with
  | none => (st, [Ev.errorIgnored ErrKind.ResponseIDUnexpected])
  | some t => (st, [Ev.resolved t.request resp])

/-! ## TCP framing and TSIG signing (`TransportTCP.send`) -/

/-- A request at the `TransportTCP.send` boundary: id, opcode, number
of records in the `additionals` section, and whether a
`transactionSigner` is attached. -/
structure TcpSendReq where
  id : Nat
  opcode : Nat
  additionalsLen : Nat
  hasSigner : Bool
  deriving DecidableEq, Repr

/-- Big-endian 16-bit encoding of a value already below 2^16. -/
def u16be (v : Nat) : List Nat := [v / 256 % 256, v % 256]

/-- `TransportTCP.send(request)`.  `Message.ts` is not among the
sources; modelled from the spec: `request.write(writer)` appends the
serialized message `body` at offset 2 of the scratch buffer with the
header at its start (ARCOUNT at message bytes 10..11, spec §4.D), and
`signer.sign(id, bytes).write(writer)` appends the TSIG resource
record `sign body` computed from exactly the previously written bytes.
Faithful to the source: the signing branch is taken iff
`request.transactionSigner` is attached — the opcode is never
consulted — and afterwards the ARCOUNT bytes of the serialized header
are overwritten in place with `additionals.length + 1`; finally, unless
the writer overflowed, the u16 total length is placed at offset 0 and
the frame is written to the socket.  Returns the frame written to the
socket (`none` when the overflow event fired instead) and whether the
signing step ran. -/
def tcpSendFrame (bufLen : Nat) (req : TcpSendReq) (body : List Nat)
    (sign : List Nat → List Nat) : Option (List Nat) × Bool :=
  let msg := if req.hasSigner then
      (((body ++ sign body).set 10 ((req.additionalsLen + 1) / 256 % 256)).set
        11 ((req.additionalsLen + 1) % 256))
    else body
  if 2 + msg.length > bufLen then (none, req.hasSigner)
  else (some (u16be msg.length ++ msg), req.hasSigner)

/-! ## Timeout / retry timing (`SenderBase`'s `setInterval` handler)

An idealized discrete-time reading of the interval timer created in the
`SenderBase` constructor: ticks fire exactly every `d` ms (the source's
`Math.max(timeoutInMs / 20, 50)`), and a scan at time `now` times a
task out iff `now - timeoutInMs ≥ timeSentUnixMs`, whereupon the task
is removed from `inbound`, `retriesLeft` is decremented, and the task
is re-enqueued while retries remained (re-sending immediately, at that
same tick, over the open transport) or rejected `RequestUnanswered`
otherwise.  The scenario is the claim's: one task, a server that never
replies. -/

/-- The first tick time (a multiple of `d`) that is `≥ t`. -/
def nextTickAt (d t : Nat) : Nat := d * ((t + d - 1) / d)

/-- The retry rounds after an initial send at `timeSent`: returns the
times of the re-sends, the settle time, and the rejection kind. -/
def retryGo (d timeout : Nat) (timeSent : Nat) :
    Nat → List Nat × Nat × ErrKind
  | 0 => ([], nextTickAt d (timeSent + timeout), ErrKind.RequestUnanswered)
  | r + 1 =>
    let T := nextTickAt d (timeSent + timeout)
    let (rest, settle, k) := retryGo d timeout T r
    (T :: rest, settle, k)

/-- All transport send times for a task first sent at `t0` with
`retries` retries left, against a server that never replies. -/
def retrySendTimes (d timeout t0 retries : Nat) : List Nat :=
  t0 :: (retryGo d timeout t0 retries).1

/-- The time at which the caller's future settles. -/
def retrySettleTime (d timeout t0 retries : Nat) : Nat :=
  (retryGo d timeout t0 retries).2.1

/-- The error kind the caller's future is rejected with. -/
def retrySettleKind (d timeout t0 retries : Nat) : ErrKind :=
  (retryGo d timeout t0 retries).2.2

/-- The source's tick interval `Math.max(timeoutInMs / 20, 50)`. -/
def tickInterval (timeout : Nat) : Nat := max (timeout / 20) 50

/-- Write-window operations that enforce the window end atomically:
`write`, `writeU8`, `writeU16`, `writeU32`, `writeU48`. -/
inductive WOp
  | raw (src : List Nat)
  | u8 (v : Nat)
  | u16 (v : Nat)
  | u32 (v : Nat)
  | u48 (v : Nat)
  deriving DecidableEq, Repr

/-- Number of bytes the operation would occupy. -/
def WOp.size : WOp → Nat
  | .raw src => src.length
  | .u8 _ => 1
  | .u16 _ => 2
  | .u32 _ => 4
  | .u48 _ => 6

/-- Dispatch one atomic write operation. -/
def Writer.applyOp (w : Writer) : WOp → Writer
  | .raw src => w.write src
  | .u8 v => w.writeU8 v
  | .u16 v => w.writeU16 v
  | .u32 v => w.writeU32 v
  | .u48 v => w.writeU48 v

/-- Apply a sequence of atomic write operations. -/
def Writer.applyOps (w : Writer) (ops : List WOp) : Writer :=
  ops.foldl Writer.applyOp w

/-- The textual name `mail\.dns.arrowhead.org.` as character codes. -/
def nameMailDns : List Nat :=
  [109, 97, 105, 108, 92, 46, 100, 110, 115, 46, 97, 114, 114, 111, 119,
   104, 101, 97, 100, 46, 111, 114, 103, 46]

/-- Its wire form: the 8-byte label `mail.dns`, then `arrowhead`,
`org`, and the zero terminator. -/
def wireMailDns : List Nat :=
  [8, 109, 97, 105, 108, 46, 100, 110, 115, 9, 97, 114, 114, 111, 119,
   104, 101, 97, 100, 3, 111, 114, 103, 0]

/-! ## Theorems -/

/-- C1: the spec claims a `tc=1` response on the UDP path causes
exactly one TCP retry of the same request instead of resolving the
caller's future with the truncated response, and the source's own
class documentation promises that truncated UDP messages are retried.
The code, however, never inspects the `tc` flag: delivering a
truncated response for the in-flight request with id 1 dequeues the
task and resolves the caller's future with that truncated response,
and the TCP sender's queues stay empty — no TCP retry happens. -/
theorem tc_response_resolves_caller_no_tcp_retry :
    udpResponse
      ⟨⟨[(1, ⟨⟨1, 0, 100⟩, 2, some 0⟩)], []⟩, ⟨[], []⟩, true, false⟩
      ⟨1, true⟩ =
      (⟨⟨[], []⟩, ⟨[], []⟩, true, false⟩,
       [Ev.resolved ⟨1, 0, 100⟩ ⟨1, true⟩]) := by
  decide

/-- C2 counterexample: the claim says the TCP-path signing step runs
exactly when the opcode is UPDATE; but `TransportTCP.send` signs
whenever a `transactionSigner` is attached and never consults the
opcode — here a request with opcode QUERY (0) and a signer attached is
signed. -/
theorem tcp_signing_without_update_opcode :
    (tcpSendFrame 65537 ⟨1, 0, 0, true⟩ (List.replicate 12 0)
      (fun _ => [250])).2 = true ∧
    (⟨1, 0, 0, true⟩ : TcpSendReq).opcode ≠ opcodeUPDATE := by
  decide

/-- C3 counterexample: the claim says a task whose id already sits in
the sender's outbound queue is rejected with `RequestIDInUse`; but
`SenderBase.enqueue` checks only the inbound map, so with a task of id
7 queued in outbound (transport closed) a second task of id 7 is
accepted and pushed, leaving two id-7 tasks in the queue and emitting
no rejection. -/
theorem enqueue_accepts_duplicate_id_in_outbound :
    udpEnqueue 65537 0
      ⟨⟨[], [⟨⟨7, 0, 100⟩, 2, none⟩]⟩, ⟨[], []⟩, false, false⟩
      ⟨⟨7, 0, 200⟩, 0, none⟩ =
      (⟨⟨[], [⟨⟨7, 0, 100⟩, 2, none⟩, ⟨⟨7, 0, 200⟩, 0, none⟩]⟩,
        ⟨[], []⟩, false, false⟩,
       [Ev.udpOpenRequested]) := by
  decide

/-- C4 counterexample: the claim says an oversized (600-byte,
non-UPDATE) request is handed to the TCP sender with `retries_left`
equal to 0; but the fallback hands the task over with `retriesLeft`
untouched — still the 2 set on the UDP path. -/
theorem udp_overflow_fallback_keeps_retries :
    ((udpOpened 65537 7
        (resolverSend 65537 5 RState.initial ⟨1, 0, 600⟩).1).1).tcp.outbound
      = [⟨⟨1, 0, 600⟩, 2, none⟩] ∧
    (2 : Int) ≠ 0 := by
  decide

/-- C5 counterexample: the claim bounds the settle time by
`(retries_left + 1) * timeout_ms` plus one tick interval; with
`timeout_ms = 120` the tick interval is `max(120 / 20, 50) = 50`,
which does not divide 120, so each round lasts 150 ms and the future
settles at 450 ms — past the claimed bound of `3 * 120 + 50 = 410` —
even though the three send attempts are exactly as claimed. -/
theorem retry_settle_exceeds_claimed_bound :
    tickInterval 120 = 50 ∧
    retrySettleTime 50 120 0 2 = 450 ∧
    (2 + 1) * 120 + tickInterval 120 < retrySettleTime 50 120 0 2 ∧
    (retrySendTimes 50 120 0 2).length = 3 := by
  decide

/-- C6 counterexample: the claim says every write operation that would
advance past the window end sets `overflowed` and is discarded
entirely, and that all further writes are no-ops.  Both parts fail:
`writeString` on a window of end 2 writes its content bytes past the
end (cursor lands at 3) without setting the flag, and after a
`writeU32` overflow a subsequent fitting `writeU8` is still performed
rather than being a no-op. -/
theorem writeString_overflow_not_discarded_and_flag_not_gating :
    (Writer.make (List.replicate 8 0) 0 (some 2)).writeString [97, 98] =
      ⟨[2, 97, 98, 0, 0, 0, 0, 0], 3, 2, false⟩ ∧
    ((Writer.make (List.replicate 8 0) 0 (some 2)).writeU32 5).writeU8 97 =
      ⟨[97, 0, 0, 0, 0, 0, 0, 0], 1, 2, true⟩ := by
  decide

/-- C7 counterexample: the claim says every operation, including `pop`
sub-window derivation, preserves `begin ≤ cursor ≤ end`; but `pop`
advances the parent cursor by the requested length unconditionally —
here past the end on both the write window (cursor 5, end 2) and the
read window (cursor 10, end 3). -/
theorem pop_advances_cursor_past_end :
    ((Writer.make (List.replicate 8 0) 0 (some 2)).pop 5).2.cursor = 5 ∧
    ((Writer.make (List.replicate 8 0) 0 (some 2)).pop 5).2.endIdx = 2 ∧
    ((Reader.make [0, 0, 0] 0 none).pop 10).2.cursor = 10 ∧
    ((Reader.make [0, 0, 0] 0 none).pop 10).2.endIdx = 3 := by
  decide

/-- C8 counterexample: the claim says a name containing a 64-byte
label fails rather than being emitted; but `writeStrings` masks the
length with `0x3f`, so a 64-byte label has masked length 0 and is
silently skipped: the name encodes as the bare zero terminator, with
no overflow flag and no error. -/
theorem writeName_silently_drops_64_byte_label :
    (Writer.make (List.replicate 65 0) 0 none).writeName
        (List.replicate 64 97) =
      ⟨List.replicate 65 0, 1, 65, false⟩ := by
  decide

/-- C9 counterexample: the claim says decoding escapes each dot inside
a label; but the source's `replace(".", "\\.")` rewrites only the
first occurrence, so the single label `a.b.c` decodes to `a\.b.c.`
rather than `a\.b\.c.`. -/
theorem readName_escapes_only_first_dot :
    (Reader.make [5, 97, 46, 98, 46, 99, 0] 0 none).readName.1 =
      [97, 92, 46, 98, 46, 99, 46] ∧
    [97, 92, 46, 98, 46, 99, 46] ≠ [97, 92, 46, 98, 92, 46, 99, 46] := by
  decide

/-- C9 amended: decoding escapes only the first dot of each label (and
encoding un-escapes); for the spec's concrete example, whose label
contains a single dot, the round trip holds: `mail\.dns.arrowhead.org.`
encodes as the 8-byte label `mail.dns` followed by `arrowhead`, `org`
and the terminator, and decoding that wire form yields the escaped
textual name again. -/
theorem name_escaped_dot_roundtrip_example :
    (Writer.make (List.replicate 24 0) 0 none).writeName nameMailDns =
      ⟨wireMailDns, 24, 24, false⟩ ∧
    (Reader.make wireMailDns 0 none).readName.1 = nameMailDns := by
  decide

/-- The first tick at or after `t` comes within one tick interval. -/
lemma nextTickAt_le (d t : Nat) (hd : 0 < d) : nextTickAt d t ≤ t + d := by
  unfold nextTickAt
  have h := Nat.div_mul_le_self (t + d - 1) d
  have h2 : d * ((t + d - 1) / d) = (t + d - 1) / d * d := Nat.mul_comm _ _
  omega

/-- Retry rounds: each round resends once, the settle happens within
`timeout + d` of the previous send, and the final rejection is
`RequestUnanswered`. -/
lemma retryGo_spec (d timeout : Nat) (hd : 0 < d) :
    ∀ (retries timeSent : Nat),
      (retryGo d timeout timeSent retries).1.length = retries ∧
      (retryGo d timeout timeSent retries).2.2 = ErrKind.RequestUnanswered ∧
      (retryGo d timeout timeSent retries).2.1 ≤
        timeSent + (retries + 1) * (timeout + d) := by
  intro retries
  induction retries with
  | zero =>
    intro timeSent
    refine ⟨rfl, rfl, ?_⟩
    have h := nextTickAt_le d (timeSent + timeout) hd
    simpa [retryGo] using by omega
  | succ r ih =>
    intro timeSent
    have hT := nextTickAt_le d (timeSent + timeout) hd
    obtain ⟨hlen, hkind, hle⟩ := ih (nextTickAt d (timeSent + timeout))
    refine ⟨?_, ?_, ?_⟩
    · simp [retryGo, hlen]
    · simpa [retryGo] using hkind
    · have : nextTickAt d (timeSent + timeout) + (r + 1) * (timeout + d) ≤
          timeSent + (timeout + d) + (r + 1) * (timeout + d) := by omega
      have hgoal : (retryGo d timeout timeSent (r + 1)).2.1 =
          (retryGo d timeout (nextTickAt d (timeSent + timeout)) r).2.1 := by
        simp [retryGo]
      rw [hgoal]
      calc (retryGo d timeout (nextTickAt d (timeSent + timeout)) r).2.1
          ≤ nextTickAt d (timeSent + timeout) + (r + 1) * (timeout + d) := hle
        _ ≤ timeSent + (timeout + d) + (r + 1) * (timeout + d) := this
        _ = timeSent + (r + 1 + 1) * (timeout + d) := by ring

/-- C5 amended: against a never-replying server, a task first sent at
`t0` with `retries` retries left is sent exactly `retries + 1` times
(three times for the UDP default of 2) and its future settles with
`RequestUnanswered`, but the settle-time bound must allow the
tick-alignment slack once per round: it is
`(retries + 1) * (timeout_ms + tick)` rather than
`(retries + 1) * timeout_ms` plus a single tick interval. -/
theorem retry_three_sends_and_settle_bound (d timeout t0 retries : Nat)
    (hd : 0 < d) :
    (retrySendTimes d timeout t0 retries).length = retries + 1 ∧
    retrySettleKind d timeout t0 retries = ErrKind.RequestUnanswered ∧
    retrySettleTime d timeout t0 retries ≤
      t0 + (retries + 1) * (timeout + d) := by
  obtain ⟨hlen, hkind, hle⟩ := retryGo_spec d timeout hd retries t0
  exact ⟨by simp [retrySendTimes, hlen], hkind, hle⟩

/-- C5 witness: the spec's own example, `timeout_ms = 100` (tick 50),
`retries_left = 2`: three sends, `RequestUnanswered`, settled within
`3 * 150 = 450` ms. -/
theorem retry_bound_witness :
    0 < 50 ∧
    ((retrySendTimes 50 100 0 2).length = 2 + 1 ∧
     retrySettleKind 50 100 0 2 = ErrKind.RequestUnanswered ∧
     retrySettleTime 50 100 0 2 ≤ 0 + (2 + 1) * (100 + 50)) :=
  ⟨by decide, retry_three_sends_and_settle_bound 50 100 0 2 (by decide)⟩

/-- C3 amended: `SenderBase.enqueue` rejects with `RequestIDInUse`
exactly when the task's id is already in the inbound map, leaving both
containers unchanged; the outbound queue is never consulted, so a task
whose id duplicates a queued-but-unsent task is accepted: it is pushed
onto the outbound queue and `poll` runs (with the transport closed,
the poll requests an open and the task stays queued). -/
theorem enqueue_rejects_only_inbound_duplicates (bufLen now : Nat)
    (st : RState) (t : Task) (hclosed : st.udpOpen = false) :
    (inboundHas st.udp.inbound t.request.id = true →
      udpEnqueue bufLen now st t =
        (st, [Ev.rejectedTask t.request.id ErrKind.RequestIDInUse])) ∧
    (inboundHas st.udp.inbound t.request.id = false →
      udpEnqueue bufLen now st t =
        ({ st with udp := { st.udp with
            outbound := st.udp.outbound ++ [t] } },
         [Ev.udpOpenRequested])) := by
  constructor
  · intro h
    simp [udpEnqueue, h]
  · intro h
    simp [udpEnqueue, h, udpPoll, hclosed]

/-- C3 witness: a state with id 7 in the inbound map rejects a new id-7
task and stays unchanged. -/
theorem enqueue_inbound_reject_witness :
    ((⟨⟨[(7, ⟨⟨7, 0, 100⟩, 2, some 0⟩)], []⟩, ⟨[], []⟩, false, false⟩ :
        RState).udpOpen = false) ∧
    udpEnqueue 65537 0
      ⟨⟨[(7, ⟨⟨7, 0, 100⟩, 2, some 0⟩)], []⟩, ⟨[], []⟩, false, false⟩
      ⟨⟨7, 0, 200⟩, 0, none⟩ =
      (⟨⟨[(7, ⟨⟨7, 0, 100⟩, 2, some 0⟩)], []⟩, ⟨[], []⟩, false, false⟩,
       [Ev.rejectedTask 7 ErrKind.RequestIDInUse]) :=
  ⟨rfl,
   (enqueue_rejects_only_inbound_duplicates 65537 0 _ _ rfl).1 (by decide)⟩

/-- C2 amended: on the TCP path the signing step runs exactly when a
transaction signer is attached — irrespective of the opcode; when it
runs (and the frame fits), the TSIG record computed by `sign` over
exactly the previously written message bytes is appended after them,
and the ARCOUNT bytes (message offsets 10..11) of the wire form carry
`len(additionals) + 1` big-endian. -/
theorem tcp_send_signs_iff_signer_and_patches_arcount (bufLen : Nat)
    (req : TcpSendReq) (body : List Nat) (sign : List Nat → List Nat)
    (hsig : req.hasSigner = true) (hlen : 12 ≤ body.length)
    (hroom : 2 + (body.length + (sign body).length) ≤ bufLen) :
    (∀ r : TcpSendReq, (tcpSendFrame bufLen r body sign).2 = r.hasSigner) ∧
    (tcpSendFrame bufLen req body sign).1 =
      some (u16be (body.length + (sign body).length) ++
        (((body.set 10 ((req.additionalsLen + 1) / 256 % 256)).set 11
            ((req.additionalsLen + 1) % 256)) ++ sign body)) ∧
    (∀ f, (tcpSendFrame bufLen req body sign).1 = some f →
      (f.drop 2).get? 10 = some ((req.additionalsLen + 1) / 256 % 256) ∧
      (f.drop 2).get? 11 = some ((req.additionalsLen + 1) % 256) ∧
      (f.drop 2).drop body.length = sign body) := by
  have h10 : 10 < body.length := by omega
  have h11 : 11 < body.length := by omega
  have hmsg : (((body ++ sign body).set 10
        ((req.additionalsLen + 1) / 256 % 256)).set 11
        ((req.additionalsLen + 1) % 256)) =
      ((body.set 10 ((req.additionalsLen + 1) / 256 % 256)).set 11
        ((req.additionalsLen + 1) % 256)) ++ sign body := by
    rw [List.set_append_left 10 _ (by omega),
        List.set_append_left 11 _ (by simp; omega)]
  have hmlen : (((body.set 10 ((req.additionalsLen + 1) / 256 % 256)).set 11
        ((req.additionalsLen + 1) % 256)) ++ sign body).length =
      body.length + (sign body).length := by simp
  have hframe : tcpSendFrame bufLen req body sign =
      (some (u16be (body.length + (sign body).length) ++
        (((body.set 10 ((req.additionalsLen + 1) / 256 % 256)).set 11
            ((req.additionalsLen + 1) % 256)) ++ sign body)), true) := by
    unfold tcpSendFrame
    rw [hsig]
    simp only [if_true, hmsg, hmlen]
    rw [if_neg (by omega)]
  refine ⟨?_, by rw [hframe], ?_⟩
  · intro r
    unfold tcpSendFrame
    rcases hs : r.hasSigner <;> simp [hs] <;> split <;> rfl
  · intro f hf
    rw [hframe] at hf
    obtain rfl : f = _ := (Option.some_inj.mp hf).symm
    have hdrop : (u16be (body.length + (sign body).length) ++
        (((body.set 10 ((req.additionalsLen + 1) / 256 % 256)).set 11
            ((req.additionalsLen + 1) % 256)) ++ sign body)).drop 2 =
        ((body.set 10 ((req.additionalsLen + 1) / 256 % 256)).set 11
            ((req.additionalsLen + 1) % 256)) ++ sign body := by
      have : (u16be (body.length + (sign body).length)).length = 2 := rfl
      rw [← this, List.drop_left]
    rw [hdrop]
    refine ⟨?_, ?_, ?_⟩
    · simp only [List.get?_eq_getElem?]
      rw [List.getElem?_append_left (by simp; omega),
          List.getElem?_set_ne (by omega), List.getElem?_set_self']
      simp [h10]
    · simp only [List.get?_eq_getElem?]
      rw [List.getElem?_append_left (by simp; omega),
          List.getElem?_set_self']
      simp [h11]
    · have : body.length = (((body.set 10
          ((req.additionalsLen + 1) / 256 % 256)).set 11
          ((req.additionalsLen + 1) % 256))).length := by simp
      rw [this, List.drop_left]

/-- C2 witness: a signed UPDATE request with one additional record, a
14-byte body and a 2-byte TSIG blob. -/
theorem tcp_send_sign_witness :
    ((⟨9, 5, 1, true⟩ : TcpSendReq).hasSigner = true) ∧
    (12 ≤ (List.replicate 14 7 : List Nat).length) ∧
    (2 + ((List.replicate 14 7 : List Nat).length +
      ((fun _ => [250, 251]) (List.replicate 14 7 : List Nat)).length) ≤ 65537) ∧
    (tcpSendFrame 65537 ⟨9, 5, 1, true⟩ (List.replicate 14 7)
        (fun _ => [250, 251])).1 =
      some (u16be ((List.replicate 14 7 : List Nat).length +
          ((fun _ => [250, 251]) (List.replicate 14 7 : List Nat)).length) ++
        ((((List.replicate 14 7 : List Nat).set 10 ((1 + 1) / 256 % 256)).set 11
            ((1 + 1) % 256)) ++ (fun _ => [250, 251]) (List.replicate 14 7))) :=
  ⟨rfl, by decide, by decide,
   (tcp_send_signs_iff_signer_and_patches_arcount 65537 ⟨9, 5, 1, true⟩
      (List.replicate 14 7) (fun _ => [250, 251]) rfl (by decide)
      (by decide)).2.1⟩

/-- C4 amended: a non-UPDATE request whose encoding exceeds 512 bytes
but fits the TCP limit is recovered by handing the very same task to
the TCP sender — with `retriesLeft` unchanged at the 2 set for the UDP
path, not reset to 0 — and once the TCP transport opens and a response
with the matching id arrives, the original caller's future is resolved
with it. -/
theorem udp_overflow_falls_back_to_tcp_and_resolves (req : DnsRequest)
    (n1 n2 n3 : Nat) (resp : Response)
    (hop : req.opcode ≠ opcodeUPDATE)
    (hbig : 512 < req.size) (hfit : req.size ≤ 65535)
    (hid : resp.id = req.id) :
    ((udpOpened 65537 n2
        (resolverSend 65537 n1 RState.initial req).1).1).tcp.outbound =
      [⟨req, 2, none⟩] ∧
    (tcpResponse
        (tcpOpened 65537 n3
          (udpOpened 65537 n2
            (resolverSend 65537 n1 RState.initial req).1).1).1
        resp).2 = [Ev.resolved req resp] := by
  have h1 : ¬(req.size > 65537) := by omega
  have h3 : ¬(2 + req.size > 65537) := by omega
  simp [resolverSend, hop, udpEnqueue, udpPoll, udpOpened, tcpOpened,
    tcpPoll, tcpEnqueue, udpSendTask, tcpSendTask, RState.initial,
    inboundHas, inboundSet, SenderState.dequeue, dequeueOutbound,
    inboundGet, inboundDelete, tcpResponse, hbig, hfit, h1, h3, hid]

/-- C4 witness: the spec's 600-byte request scenario. -/
theorem udp_overflow_fallback_witness :
    ((⟨1, 0, 600⟩ : DnsRequest).opcode ≠ opcodeUPDATE) ∧
    (512 < (⟨1, 0, 600⟩ : DnsRequest).size) ∧
    ((⟨1, 0, 600⟩ : DnsRequest).size ≤ 65535) ∧
    ((⟨1, false⟩ : Response).id = (⟨1, 0, 600⟩ : DnsRequest).id) ∧
    (tcpResponse
        (tcpOpened 65537 9
          (udpOpened 65537 7
            (resolverSend 65537 5 RState.initial ⟨1, 0, 600⟩).1).1).1
        ⟨1, false⟩).2 = [Ev.resolved ⟨1, 0, 600⟩ ⟨1, false⟩] :=
  ⟨by decide, by decide, by decide, rfl,
   (udp_overflow_falls_back_to_tcp_and_resolves ⟨1, 0, 600⟩ 5 7 9 ⟨1, false⟩
      (by decide) (by decide) (by decide) rfl).2⟩

/-- Bytes at or past the region a clamped copy touches are unchanged. -/
lemma bufCopy_get?_ge (src sink : List Nat) (c i : Nat)
    (h : c + src.length ≤ i) :
    (bufCopy src sink c).1.get? i = sink.get? i := by
  unfold bufCopy
  by_cases hc : c ≤ sink.length
  · have hlen2 :
        (sink.take c ++ src.take (min src.length (sink.length - c))).length =
        c + min src.length (sink.length - c) := by
      simp
      omega
    simp only [List.get?_eq_getElem?]
    rw [List.getElem?_append_right (by rw [hlen2]; omega)]
    rw [List.getElem?_drop]
    congr 1
    rw [hlen2]
    omega
  · have hn0 : min src.length (sink.length - c) = 0 := by omega
    simp only [hn0, List.take_zero, Nat.add_zero, List.append_nil]
    rw [List.drop_of_length_le (by omega), List.take_of_length_le (by omega)]
    simp

/-- A single byte stored below `k` leaves `get?` at `i ≥ k` alone. -/
lemma set_get?_ge (l : List Nat) (j v i : Nat) (h : j < i) :
    (l.set j v).get? i = l.get? i := by
  simp only [List.get?_eq_getElem?]
  exact List.getElem?_set_ne (by omega)

/-- Each atomic write either only raises the flag or touches only
bytes strictly below the window end; the end bound itself never
changes. -/
lemma applyOp_get?_ge (w : Writer) (op : WOp) (i : Nat)
    (h : w.endIdx ≤ i) :
    (w.applyOp op).sink.get? i = w.sink.get? i ∧
    (w.applyOp op).endIdx = w.endIdx := by
  cases op with
  | raw src =>
    simp only [Writer.applyOp, Writer.write]
    split
    · exact ⟨rfl, rfl⟩
    · rename_i hfit
      exact ⟨bufCopy_get?_ge src w.sink w.cursor i (by omega), rfl⟩
  | u8 v =>
    simp only [Writer.applyOp, Writer.writeU8]
    split
    · exact ⟨rfl, rfl⟩
    · rename_i hfit
      exact ⟨set_get?_ge _ _ _ _ (by omega), rfl⟩
  | u16 v =>
    simp only [Writer.applyOp, Writer.writeU16]
    split
    · exact ⟨rfl, rfl⟩
    · rename_i hfit
      rw [set_get?_ge _ _ _ _ (by omega), set_get?_ge _ _ _ _ (by omega)]
      exact ⟨rfl, rfl⟩
  | u32 v =>
    simp only [Writer.applyOp, Writer.writeU32]
    split
    · exact ⟨rfl, rfl⟩
    · rename_i hfit
      rw [set_get?_ge _ _ _ _ (by omega), set_get?_ge _ _ _ _ (by omega),
          set_get?_ge _ _ _ _ (by omega), set_get?_ge _ _ _ _ (by omega)]
      exact ⟨rfl, rfl⟩
  | u48 v =>
    simp only [Writer.applyOp, Writer.writeU48]
    split
    · exact ⟨rfl, rfl⟩
    · rename_i hfit
      rw [set_get?_ge _ _ _ _ (by omega), set_get?_ge _ _ _ _ (by omega),
          set_get?_ge _ _ _ _ (by omega), set_get?_ge _ _ _ _ (by omega),
          set_get?_ge _ _ _ _ (by omega), set_get?_ge _ _ _ _ (by omega)]
      exact ⟨rfl, rfl⟩

/-- Sequences of atomic writes never touch bytes at or past the end
bound. -/
lemma applyOps_get?_ge (ops : List WOp) : ∀ (w : Writer) (i : Nat),
    w.endIdx ≤ i →
    (w.applyOps ops).sink.get? i = w.sink.get? i ∧
    (w.applyOps ops).endIdx = w.endIdx := by
  induction ops with
  | nil => intro w i h; exact ⟨rfl, rfl⟩
  | cons op rest ih =>
    intro w i h
    obtain ⟨h1, h2⟩ := applyOp_get?_ge w op i h
    obtain ⟨h3, h4⟩ := ih (w.applyOp op) i (by omega)
    constructor
    · simp only [Writer.applyOps, List.foldl_cons] at h3 ⊢
      rw [h3, h1]
    · simp only [Writer.applyOps, List.foldl_cons] at h4 ⊢
      rw [h4, h2]

/-- C6 amended: for `write` and the typed writes `writeU8`..`writeU48`
a write that would advance past the window end sets `overflowed` and
discards that write in its entirety (cursor and sink unchanged), and
no sequence of these operations ever modifies a sink byte at or past
the end bound; but the flag does not make the window a no-op — a later
write that fits is performed normally, leaving the flag as it was —
and `writeString`/`writeStrings` do not enforce the end bound on their
string content bytes at all (counterexample theorem). -/
theorem atomic_writes_overflow_semantics :
    (∀ (w : Writer) (op : WOp), w.endIdx < w.cursor + op.size →
      w.applyOp op = { w with overflowed := true }) ∧
    (∀ (w : Writer) (op : WOp), w.cursor + op.size ≤ w.endIdx →
      w.endIdx ≤ w.sink.length →
      (w.applyOp op).cursor = w.cursor + op.size ∧
      (w.applyOp op).overflowed = w.overflowed ∧
      (w.applyOp op).sink.length = w.sink.length) ∧
    (∀ (w : Writer) (ops : List WOp) (i : Nat), w.endIdx ≤ i →
      (w.applyOps ops).sink.get? i = w.sink.get? i) := by
  refine ⟨?_, ?_, ?_⟩
  · intro w op hover
    cases op with
    | raw src =>
      simp only [WOp.size] at hover
      simp only [Writer.applyOp, Writer.write]
      rw [if_pos (by omega)]
    | u8 v =>
      simp only [WOp.size] at hover
      simp only [Writer.applyOp, Writer.writeU8]
      rw [if_pos (by omega)]
    | u16 v =>
      simp only [WOp.size] at hover
      simp only [Writer.applyOp, Writer.writeU16]
      rw [if_pos (by omega)]
    | u32 v =>
      simp only [WOp.size] at hover
      simp only [Writer.applyOp, Writer.writeU32]
      rw [if_pos (by omega)]
    | u48 v =>
      simp only [WOp.size] at hover
      simp only [Writer.applyOp, Writer.writeU48]
      rw [if_pos (by omega)]
  · intro w op hfit hsink
    cases op with
    | raw src =>
      simp only [WOp.size] at hfit
      simp only [Writer.applyOp, Writer.write]
      rw [if_neg (by omega)]
      have hn : min src.length (w.sink.length - w.cursor) = src.length := by
        omega
      refine ⟨by simp [bufCopy, hn, WOp.size], rfl, ?_⟩
      simp only [bufCopy, hn]
      simp only [List.length_append, List.length_take, List.length_drop]
      omega
    | u8 v =>
      simp only [WOp.size] at hfit
      simp only [Writer.applyOp, Writer.writeU8]
      rw [if_neg (by omega)]
      exact ⟨rfl, rfl, by simp⟩
    | u16 v =>
      simp only [WOp.size] at hfit
      simp only [Writer.applyOp, Writer.writeU16]
      rw [if_neg (by omega)]
      exact ⟨rfl, rfl, by simp⟩
    | u32 v =>
      simp only [WOp.size] at hfit
      simp only [Writer.applyOp, Writer.writeU32]
      rw [if_neg (by omega)]
      exact ⟨rfl, rfl, by simp⟩
    | u48 v =>
      simp only [WOp.size] at hfit
      simp only [Writer.applyOp, Writer.writeU48]
      rw [if_neg (by omega)]
      exact ⟨rfl, rfl, by simp⟩
  · intro w ops i h
    exact (applyOps_get?_ge ops w i h).1

/-- C6 witness: a 2-byte window: an oversized `writeU32` is discarded
with the flag raised, a fitting `writeU8` then still lands, and no
byte at or past the end bound ever changes. -/
theorem atomic_writes_witness :
    ((Writer.make (List.replicate 8 0) 0 (some 2)).endIdx <
      (Writer.make (List.replicate 8 0) 0 (some 2)).cursor +
        (WOp.u32 5).size) ∧
    (Writer.make (List.replicate 8 0) 0 (some 2)).applyOp (WOp.u32 5) =
      { Writer.make (List.replicate 8 0) 0 (some 2) with
        overflowed := true } ∧
    ((Writer.make (List.replicate 8 0) 0 (some 2)).applyOps
      [WOp.u32 5, WOp.u8 97]).sink.get? 5 =
      (Writer.make (List.replicate 8 0) 0 (some 2)).sink.get? 5 :=
  ⟨by decide,
   atomic_writes_overflow_semantics.1 _ (WOp.u32 5) (by decide),
   atomic_writes_overflow_semantics.2.2 _ [WOp.u32 5, WOp.u8 97] 5
     (by decide)⟩

/-- `read` clamps at the end bound and never rewinds. -/
lemma read_cursor_bounds (r : Reader) (n : Nat) (h : r.cursor ≤ r.endIdx) :
    r.cursor ≤ (r.read n).2.cursor ∧ (r.read n).2.cursor ≤ r.endIdx ∧
    (r.read n).2.endIdx = r.endIdx := by
  unfold Reader.read
  dsimp only
  omega

/-- `readU8` advances only when a byte fits. -/
lemma readU8_cursor_bounds (r : Reader) (h : r.cursor ≤ r.endIdx) :
    r.cursor ≤ (r.readU8).2.cursor ∧ (r.readU8).2.cursor ≤ r.endIdx ∧
    (r.readU8).2.endIdx = r.endIdx := by
  unfold Reader.readU8
  split <;> dsimp only <;> omega

/-- `readU16` advances only when two bytes fit. -/
lemma readU16_cursor_bounds (r : Reader) (h : r.cursor ≤ r.endIdx) :
    r.cursor ≤ (r.readU16).2.cursor ∧ (r.readU16).2.cursor ≤ r.endIdx ∧
    (r.readU16).2.endIdx = r.endIdx := by
  unfold Reader.readU16
  split <;> dsimp only <;> omega

/-- `readU32` advances only when four bytes fit. -/
lemma readU32_cursor_bounds (r : Reader) (h : r.cursor ≤ r.endIdx) :
    r.cursor ≤ (r.readU32).2.cursor ∧ (r.readU32).2.cursor ≤ r.endIdx ∧
    (r.readU32).2.endIdx = r.endIdx := by
  unfold Reader.readU32
  split <;> dsimp only <;> omega

/-- `readU48` advances only when six bytes fit. -/
lemma readU48_cursor_bounds (r : Reader) (h : r.cursor ≤ r.endIdx) :
    r.cursor ≤ (r.readU48).2.cursor ∧ (r.readU48).2.cursor ≤ r.endIdx ∧
    (r.readU48).2.endIdx = r.endIdx := by
  unfold Reader.readU48
  split <;> dsimp only <;> omega

/-- A non-zero `readU8` result implies the cursor really advanced. -/
lemma readU8_advanced (r : Reader) (len : Nat) (r1 : Reader)
    (h8 : r.readU8 = (len, r1)) (hne : len ≠ 0) :
    r1.cursor = r.cursor + 1 ∧ r.cursor + 1 ≤ r.endIdx ∧
    r1.endIdx = r.endIdx ∧ r1.source = r.source := by
  unfold Reader.readU8 at h8
  split at h8
  · cases h8
    exact absurd rfl hne
  · cases h8
    refine ⟨rfl, by omega, rfl, rfl⟩

/-- `readString` keeps the cursor within the window. -/
lemma readString_cursor_bounds (r : Reader) (h : r.cursor ≤ r.endIdx) :
    r.cursor ≤ (r.readString).2.cursor ∧
    (r.readString).2.cursor ≤ r.endIdx ∧
    (r.readString).2.endIdx = r.endIdx := by
  unfold Reader.readString
  rcases h8 : r.readU8 with ⟨len, r1⟩
  have h1 := readU8_cursor_bounds r h
  rw [h8] at h1
  dsimp only at h1 ⊢
  have h2 := read_cursor_bounds r1 len (by omega)
  omega

/-- The `readStrings` loop keeps the cursor within the window. -/
lemma readStringsGo_cursor_bounds : ∀ (fuel : Nat) (r : Reader),
    r.cursor ≤ r.endIdx →
    r.cursor ≤ (Reader.readStringsGo r fuel).2.cursor ∧
    (Reader.readStringsGo r fuel).2.cursor ≤ r.endIdx ∧
    (Reader.readStringsGo r fuel).2.endIdx = r.endIdx := by
  intro fuel
  induction fuel with
  | zero => intro r h; exact ⟨le_refl _, h, rfl⟩
  | succ fuel ih =>
    intro r h
    rcases h8 : r.readU8 with ⟨len, r1⟩
    have h1 := readU8_cursor_bounds r h
    rw [h8] at h1
    dsimp only at h1
    rcases hr : r1.read len with ⟨s, r2⟩
    have h2 := read_cursor_bounds r1 len (by omega)
    rw [hr] at h2
    dsimp only at h2
    simp only [Reader.readStringsGo, h8, hr]
    by_cases hl : len = 0
    · simp only [hl, reduceIte]
      omega
    · have h3 := ih r2 (by omega)
      rcases hgo : Reader.readStringsGo r2 fuel with ⟨rest, r3⟩
      rw [hgo] at h3
      dsimp only at h3
      simp only [hl, reduceIte, hgo]
      omega

/-- The `readName` loop keeps the cursor within the window. -/
lemma readNameGo_cursor_bounds : ∀ (fuel : Nat) (r : Reader),
    r.cursor ≤ r.endIdx →
    r.cursor ≤ (Reader.readNameGo r fuel).2.cursor ∧
    (Reader.readNameGo r fuel).2.cursor ≤ r.endIdx ∧
    (Reader.readNameGo r fuel).2.endIdx = r.endIdx := by
  intro fuel
  induction fuel with
  | zero => intro r h; exact ⟨le_refl _, h, rfl⟩
  | succ fuel ih =>
    intro r h
    rcases h8 : r.readU8 with ⟨len, r1⟩
    by_cases hl : len = 0
    · have h1 := readU8_cursor_bounds r h
      rw [h8] at h1
      dsimp only at h1
      simp only [Reader.readNameGo, h8, hl, reduceIte]
      omega
    · have hadv := readU8_advanced r len r1 h8 hl
      by_cases hbig : 63 < len
      · rcases h16 : Reader.readU16 { r1 with cursor := r1.cursor - 1 }
          with ⟨field, r3⟩
        have h2 := readU16_cursor_bounds { r1 with cursor := r1.cursor - 1 }
          (by dsimp only; omega)
        rw [h16] at h2
        dsimp only at h2
        simp only [Reader.readNameGo, h8, hl, hbig, reduceIte, h16]
        split <;> (try dsimp only) <;> omega
      · rcases hr : r1.read len with ⟨bytes, r2⟩
        have h2 := read_cursor_bounds r1 len (by omega)
        rw [hr] at h2
        dsimp only at h2
        have h3 := ih r2 (by omega)
        rcases hgo : Reader.readNameGo r2 fuel with ⟨rest, r3⟩
        rw [hgo] at h3
        dsimp only at h3
        simp only [Reader.readNameGo, h8, hl, hbig, reduceIte, hr, hgo]
        omega

/-- Atomic writes keep the cursor within the window. -/
lemma applyOp_cursor_bounds (w : Writer) (op : WOp)
    (h : w.cursor ≤ w.endIdx) :
    w.cursor ≤ (w.applyOp op).cursor ∧ (w.applyOp op).cursor ≤ w.endIdx := by
  cases op with
  | raw src =>
    simp only [Writer.applyOp, Writer.write]
    split
    · dsimp only; omega
    · dsimp only [bufCopy]; omega
  | u8 v =>
    simp only [Writer.applyOp, Writer.writeU8]
    split <;> dsimp only <;> omega
  | u16 v =>
    simp only [Writer.applyOp, Writer.writeU16]
    split <;> dsimp only <;> omega
  | u32 v =>
    simp only [Writer.applyOp, Writer.writeU32]
    split <;> dsimp only <;> omega
  | u48 v =>
    simp only [Writer.applyOp, Writer.writeU48]
    split <;> dsimp only <;> omega

/-- C7 amended: the bounded reads (`read`, the typed reads,
`readString`, `readStrings`, `readName`) and the atomic writes
(`write`, `writeU8`..`writeU48`) preserve `begin ≤ cursor ≤ end`: the
cursor never rewinds and never passes the end bound.  But `pop` is an
exception — it advances the parent cursor by the requested length
unconditionally, so a `pop` longer than the remaining window pushes
the cursor past `end` (and `writeString`/`writeStrings` content bytes
can do the same, see the C6 counterexample). -/
theorem window_ops_preserve_cursor_bounds :
    (∀ (r : Reader) (n : Nat), r.cursor ≤ r.endIdx →
      r.cursor ≤ (r.read n).2.cursor ∧ (r.read n).2.cursor ≤ r.endIdx) ∧
    (∀ r : Reader, r.cursor ≤ r.endIdx →
      (r.cursor ≤ (r.readU8).2.cursor ∧ (r.readU8).2.cursor ≤ r.endIdx) ∧
      (r.cursor ≤ (r.readU16).2.cursor ∧ (r.readU16).2.cursor ≤ r.endIdx) ∧
      (r.cursor ≤ (r.readU32).2.cursor ∧ (r.readU32).2.cursor ≤ r.endIdx) ∧
      (r.cursor ≤ (r.readU48).2.cursor ∧ (r.readU48).2.cursor ≤ r.endIdx) ∧
      (r.cursor ≤ (r.readString).2.cursor ∧
        (r.readString).2.cursor ≤ r.endIdx) ∧
      (r.cursor ≤ (r.readStrings).2.cursor ∧
        (r.readStrings).2.cursor ≤ r.endIdx) ∧
      (r.cursor ≤ (r.readName).2.cursor ∧
        (r.readName).2.cursor ≤ r.endIdx)) ∧
    (∀ (w : Writer) (op : WOp), w.cursor ≤ w.endIdx →
      w.cursor ≤ (w.applyOp op).cursor ∧ (w.applyOp op).cursor ≤ w.endIdx) ∧
    (∀ (r : Reader) (n : Nat), (r.pop n).2.cursor = r.cursor + n) ∧
    (∀ (w : Writer) (n : Nat), (w.pop n).2.cursor = w.cursor + n) := by
  refine ⟨?_, ?_, ?_, ?_, ?_⟩
  · intro r n h
    have := read_cursor_bounds r n h
    exact ⟨this.1, this.2.1⟩
  · intro r h
    have h8 := readU8_cursor_bounds r h
    have h16 := readU16_cursor_bounds r h
    have h32 := readU32_cursor_bounds r h
    have h48 := readU48_cursor_bounds r h
    have hs := readString_cursor_bounds r h
    have hss := readStringsGo_cursor_bounds (r.endIdx - r.cursor + 1) r h
    have hn := readNameGo_cursor_bounds (r.source.length + 1) r h
    exact ⟨⟨h8.1, h8.2.1⟩, ⟨h16.1, h16.2.1⟩, ⟨h32.1, h32.2.1⟩,
      ⟨h48.1, h48.2.1⟩, ⟨hs.1, hs.2.1⟩, ⟨hss.1, hss.2.1⟩, hn.1, hn.2.1⟩
  · exact applyOp_cursor_bounds
  · intro r n; rfl
  · intro w n; rfl

/-- C7 witness: a 3-byte read window and a 2-byte write window: the
typed reads and an atomic write stay within bounds; `pop` beyond the
window moves the cursor to exactly `cursor + length`, past the end. -/
theorem window_bounds_witness :
    ((Reader.make [1, 2, 3] 0 none).cursor ≤
      (Reader.make [1, 2, 3] 0 none).endIdx) ∧
    ((Reader.make [1, 2, 3] 0 none).readName.2.cursor ≤
      (Reader.make [1, 2, 3] 0 none).endIdx) ∧
    ((Writer.make (List.replicate 8 0) 0 (some 2)).pop 5).2.cursor =
      (Writer.make (List.replicate 8 0) 0 (some 2)).cursor + 5 :=
  ⟨by decide,
   ((window_ops_preserve_cursor_bounds.2.1 (Reader.make [1, 2, 3] 0 none)
      (by decide)).2.2.2.2.2.2).2,
   window_ops_preserve_cursor_bounds.2.2.2.2
     (Writer.make (List.replicate 8 0) 0 (some 2)) 5⟩

/-- A name without dots or backslashes splits into itself as a single
label (when non-empty). -/
lemma splitNameGo_clean (cs : List Nat) : ∀ acc : List Nat,
    (∀ c ∈ cs, c ≠ 46 ∧ c ≠ 92) →
    splitNameGo cs acc =
      if 0 < (acc ++ cs).length then [acc ++ cs] else [] := by
  induction cs with
  | nil =>
    intro acc h
    simp [splitNameGo]
  | cons c rest ih =>
    intro acc h
    have hc := h c (by simp)
    have hstep : splitNameGo (c :: rest) acc = splitNameGo rest (acc ++ [c]) := by
      simp [splitNameGo, hc.1, hc.2]
    rw [hstep, ih (acc ++ [c]) (fun d hd => h d (by simp [hd]))]
    simp

/-- C8 amended: `writeName` emits a 63-byte label as a length byte, the
label bytes and the terminator; but a 64-byte label does not fail: its
length is masked with `0x3f` to 0, so the label is silently omitted —
the name encodes as the bare terminator with no overflow flag and no
error signalled. -/
theorem writeName_label_63_encodes_64_dropped :
    (∀ label : List Nat, label.length = 63 →
      (∀ c ∈ label, c < 128 ∧ c ≠ 46 ∧ c ≠ 92) →
      (Writer.make (List.replicate 65 0) 0 none).writeName label =
        ⟨63 :: (label ++ [0]), 65, 65, false⟩) ∧
    (∀ label : List Nat, label.length = 64 →
      (∀ c ∈ label, c < 128 ∧ c ≠ 46 ∧ c ≠ 92) →
      (Writer.make (List.replicate 65 0) 0 none).writeName label =
        ⟨List.replicate 65 0, 1, 65, false⟩) := by
  constructor
  · intro label hlen hch
    have hsplit := splitNameGo_clean label []
      (fun c hc => ⟨(hch c hc).2.1, (hch c hc).2.2⟩)
    rw [List.nil_append, hlen] at hsplit
    rw [if_pos (by omega)] at hsplit
    unfold Writer.writeName Writer.writeStrings
    rw [hsplit]
    simp only [List.foldl_cons, List.foldl_nil]
    unfold Writer.writeStringsStep
    rw [hlen]
    norm_num
    unfold Writer.writeU8 Writer.make windowEnd bufWriteStr
    norm_num [hlen]
    rw [show (List.replicate 65 (0 : Nat)).set 0 63 =
        63 :: List.replicate 64 0 from by
      rw [List.replicate_succ]; rfl]
    norm_num [List.drop_replicate]
    rw [List.take_of_length_le (by simp [hlen])]
    rw [List.map_congr_left
      (fun c hc => Nat.mod_eq_of_lt (by have := (hch c hc).1; omega))]
    exact List.map_id label
  · intro label hlen hch
    have hsplit := splitNameGo_clean label []
      (fun c hc => ⟨(hch c hc).2.1, (hch c hc).2.2⟩)
    rw [List.nil_append, hlen] at hsplit
    rw [if_pos (by omega)] at hsplit
    unfold Writer.writeName Writer.writeStrings
    rw [hsplit]
    simp only [List.foldl_cons, List.foldl_nil]
    unfold Writer.writeStringsStep
    rw [hlen]
    have h64 : (64 : Nat) &&& 63 = 0 := by decide
    rw [h64]
    norm_num
    unfold Writer.writeU8 Writer.make windowEnd
    norm_num

/-- C8 witness: labels of 63 resp. 64 letters `a`. -/
theorem writeName_label_boundary_witness :
    (Writer.make (List.replicate 65 0) 0 none).writeName
        (List.replicate 63 97) =
      ⟨63 :: (List.replicate 63 97 ++ [0]), 65, 65, false⟩ ∧
    (Writer.make (List.replicate 65 0) 0 none).writeName
        (List.replicate 64 97) =
      ⟨List.replicate 65 0, 1, 65, false⟩ :=
  ⟨writeName_label_63_encodes_64_dropped.1 _ (by decide) (by decide),
   writeName_label_63_encodes_64_dropped.2 _ (by decide) (by decide)⟩

/-- Reading zero bytes yields the empty slice. -/
lemma read_zero (r : Reader) : (r.read 0).1 = [] := by
  unfold Reader.read
  dsimp only
  rw [Nat.add_zero,
    Nat.sub_eq_zero_of_le (Nat.min_le_right r.endIdx r.cursor)]
  exact List.take_zero _

/-- With enough fuel, the `readStrings` loop always pushes the final
zero-length string: the result is non-empty and ends with `[]`. -/
lemma readStringsGo_last_empty : ∀ (fuel : Nat) (r : Reader),
    r.endIdx - r.cursor < fuel →
    (Reader.readStringsGo r fuel).1 ≠ [] ∧
    (Reader.readStringsGo r fuel).1.getLast? = some [] := by
  intro fuel
  induction fuel with
  | zero => intro r h; omega
  | succ fuel ih =>
    intro r h
    rcases h8 : r.readU8 with ⟨len, r1⟩
    rcases hr : r1.read len with ⟨s, r2⟩
    simp only [Reader.readStringsGo, h8, hr]
    by_cases hl : len = 0
    · have hs : s = [] := by
        rw [hl] at hr
        have := read_zero r1
        rw [hr] at this
        exact this
      simp [hl, hs]
    · have hadv := readU8_advanced r len r1 h8 hl
      have hr2 : r1.cursor ≤ r2.cursor ∧ r2.endIdx = r1.endIdx := by
        have := read_cursor_bounds r1 len (by omega)
        rw [hr] at this
        dsimp only at this
        unfold Reader.read at hr
        cases hr
        dsimp only
        omega
      obtain ⟨hne, hlast⟩ := ih r2 (by omega)
      simp only [hl, reduceIte]
      constructor
      · simp
      · rcases hrest : (Reader.readStringsGo r2 fuel).1 with _ | ⟨a, as⟩
        · exact absurd hrest hne
        · rw [hrest] at hlast
          simp only [List.getLast?_cons_cons]
          exact hlast

/-- C10: `readStrings` always returns a non-empty array whose final
element is the empty string — the terminating zero length byte is
itself read and pushed — and on an already-exhausted window it returns
exactly one element, the empty string. -/
theorem readStrings_ends_with_empty_string :
    (∀ r : Reader, (r.readStrings).1 ≠ [] ∧
      (r.readStrings).1.getLast? = some []) ∧
    (∀ r : Reader, r.endIdx ≤ r.cursor → (r.readStrings).1 = [[]]) := by
  constructor
  · intro r
    exact readStringsGo_last_empty (r.endIdx - r.cursor + 1) r (by omega)
  · intro r h
    unfold Reader.readStrings
    rw [Nat.sub_eq_zero_of_le h]
    rcases h8 : r.readU8 with ⟨len, r1⟩
    have hl : len = 0 ∧ r1 = r := by
      unfold Reader.readU8 at h8
      rw [if_pos (by omega)] at h8
      cases h8
      exact ⟨rfl, rfl⟩
    rcases hr : r1.read len with ⟨s, r2⟩
    have hs : s = [] := by
      rw [hl.1] at hr
      have := read_zero r1
      rw [hr] at this
      exact this
    simp only [Reader.readStringsGo, h8, hr, hl.1, hs, reduceIte]
    simp [read_zero]

/-- C10 witness: a TXT-style sequence `03 'a' 'b' 'c' 00` decodes with
a trailing empty string, and an exhausted window yields exactly
`[""]`. -/
theorem readStrings_witness :
    ((Reader.make [3, 97, 98, 99, 0] 0 none).readStrings.1 ≠ [] ∧
     (Reader.make [3, 97, 98, 99, 0] 0 none).readStrings.1.getLast? =
       some []) ∧
    ((Reader.make [] 5 none).endIdx ≤ (Reader.make [] 5 none).cursor ∧
     (Reader.make [] 5 none).readStrings.1 = [[]]) :=
  ⟨readStrings_ends_with_empty_string.1 _,
   by decide,
   readStrings_ends_with_empty_string.2 _ (by decide)⟩

end AhfDns
